import Mathlib

/-!
Verification development for the liqo-security-engine policy compiler.

The Go sources are shallowly embedded: pure functions become Lean functions,
Kubernetes client reads become fields of an explicit environment (`Env`),
Go's `(value, error)` returns become `Except String`, and the possibility of
a runtime panic (calling a nil function obtained from a missed map lookup)
is modelled by the `ExecResult.crash` outcome.  Go maps used as sets of keys
are modelled by duplicate-free lists in insertion order; the unspecified
iteration order of `range` over a Go map is modelled by an explicit
enumeration function parameter, constrained in theorems to produce a
permutation of the key list.
-/

namespace LiqoSecurity

/-! ## Firewall data model (liqo `networking/v1beta1/firewall` API as used by the repo) -/

inductive MatchPosition where
  | src
  | dst
deriving DecidableEq, Repr

inductive MatchOperation where
  | eq
deriving DecidableEq, Repr

structure MatchIP where
  value : String
  position : MatchPosition
deriving DecidableEq, Repr

inductive CtStateValue where
  | established
  | related
deriving DecidableEq, Repr

structure MatchCtState where
  value : List CtStateValue
deriving DecidableEq, Repr

/-- One nftables match fragment: either an IP match or a conntrack-state match. -/
structure FwMatch where
  ip : Option MatchIP := none
  ctState : Option MatchCtState := none
  op : MatchOperation
deriving DecidableEq, Repr

inductive FwAction where
  | accept
  | drop
deriving DecidableEq, Repr

structure FilterRule where
  name : Option String
  action : FwAction
  matchList : List FwMatch
deriving DecidableEq, Repr

structure SetElement where
  key : String
deriving DecidableEq, Repr

inductive SetDataType where
  | ipAddr
deriving DecidableEq, Repr

/-- A named nftables set (liqo firewall `Set`; renamed to avoid the Mathlib `Set`). -/
structure FwSet where
  name : String
  keyType : SetDataType
  elements : List SetElement
deriving DecidableEq, Repr

inductive ChainHook where
  | postrouting
deriving DecidableEq, Repr

inductive ChainPolicy where
  | accept
deriving DecidableEq, Repr

inductive ChainType where
  | filter
deriving DecidableEq, Repr

structure RulesSet where
  filterRules : List FilterRule
deriving DecidableEq, Repr

structure FwChain where
  name : Option String
  hook : Option ChainHook
  policy : Option ChainPolicy
  priority : Option Int
  chainType : ChainType
  rules : RulesSet
deriving DecidableEq, Repr

inductive TableFamily where
  | ipv4
deriving DecidableEq, Repr

structure Table where
  name : Option String
  family : Option TableFamily
  sets : List FwSet
  chains : List FwChain
deriving DecidableEq, Repr

structure FirewallConfigurationSpec where
  table : Table
deriving DecidableEq, Repr

/-! ## Security API types (`api/v1/peeringsecurity_types.go`) -/

/-- Go `type ResourceGroup string`. -/
abbrev ResourceGroup := String

def ResourceGroupLocalCluster : ResourceGroup := "local-cluster"
def ResourceGroupRemoteCluster : ResourceGroup := "remote-cluster"
def ResourceGroupOffloaded : ResourceGroup := "offloaded"
def ResourceGroupVcLocal : ResourceGroup := "vc-local"
def ResourceGroupVcRemote : ResourceGroup := "vc-remote"
def ResourceGroupPrivateSubnets : ResourceGroup := "private-subnets"

/-- Go `type Action string`; the Go zero value (field absent) is `""`. -/
abbrev RuleAction := String

def ActionAllow : RuleAction := "allow"
def ActionDeny : RuleAction := "deny"

/-- Go `Party`: `Group *ResourceGroup` and `Namespace *string`, both optional pointers. -/
structure Party where
  group : Option ResourceGroup := none
  nsName : Option String := none
deriving DecidableEq, Repr

/-- Go `Rule`: `Action Action` (zero value `""` when absent), optional source and destination. -/
structure Rule where
  action : RuleAction := ""
  source : Option Party := none
  destination : Option Party := none
deriving DecidableEq, Repr

structure PeeringConnectivitySpec where
  rules : List Rule
deriving DecidableEq, Repr

/-! ## Pods and labels (`corev1.Pod` as observed by this repository) -/

/-- The fields of a `corev1.Pod` this repository reads: labels, `Spec.NodeName`,
`Status.PodIP`. Labels are a finite map, modelled as an association list. -/
structure Pod where
  labels : List (String × String) := []
  specNodeName : String := ""
  statusPodIP : String := ""
deriving DecidableEq, Repr

/-- Go map read `labels[k]` with its `exists` flag, on the association-list model. -/
def lookupLabel (labels : List (String × String)) (k : String) : Option String :=
  (labels.find? (fun kv => kv.1 = k)).map (fun kv => kv.2)

/-- liqo `consts.LocalPodLabelKey`: marker label of local shadow pods. -/
def LocalPodLabelKey : String := "liqo.io/local-pod"

/-- liqo `consts.LocalPodLabelValue`. -/
def LocalPodLabelValue : String := "true"

/-- liqo `vkforge.LiqoOriginClusterIDKey`: origin-cluster marker of offloaded pods. -/
def LiqoOriginClusterIDKey : String := "liqo.io/origin-cluster-id"

/-! ## Tenant namespace helpers (`internal/controller/utils`, namespaces file) -/

/-- liqo `tenantnamespace.NamePrefix` (pinned by the repository's own tests). -/
def NamePrefixStr : String := "liqo-tenant"

/-- Go `GetClusterNamespace`: `fmt.Sprintf("%s-%s", tenantnamespace.NamePrefix, clusterID)`. -/
def GetClusterNamespace (clusterID : String) : String :=
  NamePrefixStr ++ "-" ++ clusterID

/-- Go `ExtractClusterID`: fails unless the namespace is strictly longer than
`"liqo-tenant-"` and starts with it; otherwise returns the remainder. -/
def ExtractClusterID (ns : String) : Except String String :=
  if ns.length ≤ (NamePrefixStr ++ "-").length ∨
      ns.take (NamePrefixStr ++ "-").length ≠ NamePrefixStr ++ "-" then
    .error ("namespace " ++ ns ++ " does not have the expected prefix " ++ NamePrefixStr ++ "-")
  else
    .ok (ns.drop (NamePrefixStr ++ "-").length)

/-! ## ForgePodIpsSet (`internal/controller/utils/pods.go`) -/

/-- The loop body of `ForgePodIpsSet`: skip pods with empty `Status.PodIP`,
keep the rest as set elements, preserving order. -/
def forgeSetElements : List Pod → List SetElement
  | [] => []
  | pod :: rest =>
    if pod.statusPodIP = "" then forgeSetElements rest
    else ⟨pod.statusPodIP⟩ :: forgeSetElements rest

/-- Go `ForgePodIpsSet`: a set named `setName` holding the IPs of the pods that have one. -/
def ForgePodIpsSet (setName : String) (pods : List Pod) : FwSet :=
  { name := setName, keyType := .ipAddr, elements := forgeSetElements pods }

/-! ## Pod-change mapping (`podEnqueuer` in `peeringsecurity_controller.go`) -/

structure ReconcileRequest where
  name : String
  namespaceName : String
deriving DecidableEq, Repr

/-- Go `podEnqueuer`: shadow pods enqueue the policy for the node (provider) cluster,
unless not yet scheduled; offloaded pods enqueue the origin cluster; others nothing. -/
def podEnqueuer (pod : Pod) : List ReconcileRequest :=
  if lookupLabel pod.labels LocalPodLabelKey = some LocalPodLabelValue then
    if pod.specNodeName = "" then []
    else [⟨pod.specNodeName, GetClusterNamespace pod.specNodeName⟩]
  else
    match lookupLabel pod.labels LiqoOriginClusterIDKey with
    | some origin => [⟨origin, GetClusterNamespace origin⟩]
    | none => []

/-! ## Collaborator environment

The Kubernetes client reads performed by this repository, as an explicit
record of query results.  Each field corresponds to one `cl.Get` / `cl.List`
shape the code issues; `Except.error` models a failed read. -/

structure Env where
  /-- Result of `cl.Get` of the Network `pod-cidr` in namespace `liqo`, projected to `Spec.CIDR`
  (body of `GetCurrentClusterPodCIDR`). -/
  currentClusterPodCIDR : Except String String
  /-- Result of `cl.Get` of the Network `<clusterID>-pod` in the tenant namespace, projected to
  `Status.CIDR` (body of `GetRemoteClusterPodCIDR`). -/
  remoteClusterPodCIDR : String → Except String String
  /-- Result of `cl.List` of pods with a single matching-labels selector entry. -/
  listPodsByLabel : String → String → Except String (List Pod)
  /-- Result of `cl.List` of `NamespaceOffloading` objects, projected to their namespaces. -/
  listNamespaceOffloadings : Except String (List String)
  /-- Result of `cl.List` of the pods of one namespace (label filtering is applied in Lean,
  mirroring the selector semantics the API server guarantees). -/
  listPodsInNamespace : String → Except String (List Pod)

/-! ## Pod queries (`internal/controller/utils/pods.go`) -/

/-- Go `GetCurrentClusterPodCIDR`: a single collaborator read. -/
def GetCurrentClusterPodCIDR (env : Env) : Except String String :=
  env.currentClusterPodCIDR

/-- Go `GetRemoteClusterPodCIDR`: a single collaborator read keyed by the cluster ID. -/
def GetRemoteClusterPodCIDR (env : Env) (clusterID : String) : Except String String :=
  env.remoteClusterPodCIDR clusterID

/-- Go `GetPodsOffloadedToProvider`: list shadow pods (local-pod label), then keep those
scheduled on the node named like the provider cluster. -/
def GetPodsOffloadedToProvider (env : Env) (providerClusterID : String) :
    Except String (List Pod) :=
  (env.listPodsByLabel LocalPodLabelKey LocalPodLabelValue).map
    (fun pods => pods.filter (fun pod => pod.specNodeName = providerClusterID))

/-- Go `GetPodsFromConsumer`: list pods labelled with the consumer's origin-cluster ID. -/
def GetPodsFromConsumer (env : Env) (consumerClusterID : String) :
    Except String (List Pod) :=
  env.listPodsByLabel LiqoOriginClusterIDKey consumerClusterID

/-- The `NotEquals` label requirement used by `GetPodsInOffloadedNamespaces`:
true when the pod does not carry the shadow-pod marker (absence included). -/
def notShadowPod (pod : Pod) : Bool :=
  lookupLabel pod.labels LocalPodLabelKey ≠ some LocalPodLabelValue

/-- The namespace loop of `GetPodsInOffloadedNamespaces`, accumulating in order
and aborting on the first failed list. -/
def podsInOffloadedLoop (env : Env) : List String → Except String (List Pod)
  | [] => .ok []
  | ns :: rest =>
    match env.listPodsInNamespace ns with
    | .error e => .error e
    | .ok pods =>
      (podsInOffloadedLoop env rest).map
        (fun more => pods.filter notShadowPod ++ more)

/-- Go `GetPodsInOffloadedNamespaces`: pods of every offloading-configured namespace,
excluding shadow pods. -/
def GetPodsInOffloadedNamespaces (env : Env) : Except String (List Pod) :=
  match env.listNamespaceOffloadings with
  | .error e => .error e
  | .ok nss => podsInOffloadedLoop env nss

/-- Modelled from the spec: the repository function `GetPodsInNamespace` is not under
src (only its caller in the fabric forge and a test are); spec section 3 says a
namespace-keyed party "selects all non-shadow pods currently running in that
namespace". -/
def GetPodsInNamespace (env : Env) (ns : String) : Except String (List Pod) :=
  (env.listPodsInNamespace ns).map (fun pods => pods.filter notShadowPod)

/-! ## Resource group resolver table
(`internal/controller/utils/resource-groups.go` and `internal/resourcegroups`) -/

/-- Go `groupFuncts`: two nilable function fields. `none` models a nil Go function. -/
structure GroupFuncts where
  MakeSets : Option (Env → String → Except String (List FwSet)) := none
  MakeMatchRule : Option (Env → String → MatchPosition → Except String (List FwMatch)) := none

/-- An IP match fragment at the given position (`MatchOperationEq`). -/
def ipMatch (value : String) (position : MatchPosition) : FwMatch :=
  { ip := some ⟨value, position⟩, op := .eq }

/-- The RFC1918 constant set of the `private-subnets` group. -/
def privateSubnetsSet : FwSet :=
  { name := "privatesubnets", keyType := .ipAddr,
    elements := [⟨"10.0.0.0/8"⟩, ⟨"172.16.0.0/12"⟩, ⟨"192.168.0.0/16"⟩] }

/-- Go `ResourceGroupFuncts`: the resolver table, a Go map keyed by group name. -/
def ResourceGroupFuncts : List (ResourceGroup × GroupFuncts) :=
  [ (ResourceGroupLocalCluster,
      { MakeMatchRule := some (fun env _ pos =>
          (GetCurrentClusterPodCIDR env).map (fun cidr => [ipMatch cidr pos])) }),
    (ResourceGroupRemoteCluster,
      { MakeMatchRule := some (fun env clusterID pos =>
          (GetRemoteClusterPodCIDR env clusterID).map (fun cidr => [ipMatch cidr pos])) }),
    (ResourceGroupOffloaded,
      { MakeSets := some (fun env clusterID =>
          (GetPodsFromConsumer env clusterID).map
            (fun pods => [ForgePodIpsSet "offloaded" pods])),
        MakeMatchRule := some (fun _ _ pos => .ok [ipMatch "@offloaded" pos]) }),
    (ResourceGroupVcLocal,
      { MakeSets := some (fun env _ =>
          (GetPodsInOffloadedNamespaces env).map
            (fun pods => [ForgePodIpsSet "vclocal" pods])),
        MakeMatchRule := some (fun _ _ pos => .ok [ipMatch "@vclocal" pos]) }),
    (ResourceGroupVcRemote,
      { MakeSets := some (fun env clusterID =>
          (GetPodsOffloadedToProvider env clusterID).map
            (fun pods => [ForgePodIpsSet "vcremote" pods])),
        MakeMatchRule := some (fun _ _ pos => .ok [ipMatch "@vcremote" pos]) }),
    (ResourceGroupPrivateSubnets,
      { MakeSets := some (fun _ _ => .ok [privateSubnetsSet]),
        MakeMatchRule := some (fun _ _ pos => .ok [ipMatch "@privatesubnets" pos]) }) ]

/-- Go map indexing `ResourceGroupFuncts[g]`: a missed key yields the zero value,
whose function fields are nil. -/
def lookupGroupFuncts (g : ResourceGroup) : GroupFuncts :=
  (ResourceGroupFuncts.lookup g).getD {}

/-! ## The fabric compiler (`internal/controller/fabric/forge.go`) -/

def fabricResourceNameSuffix : String := "security-fabric"

def fabricTableName : String := "cluster-security"

def fabricChainName : String := "cluster-security-filter"

def fabricChainPriority : Int := 200

/-- Go `ForgeFabricResourceName`: `<cluster-id>-security-fabric`. -/
def ForgeFabricResourceName (clusterID : String) : String :=
  clusterID ++ "-" ++ fabricResourceNameSuffix

/-- Outcome of running a piece of Go code: normal return, returned error, or a
runtime panic (`crash`, e.g. calling a nil function). -/
inductive ExecResult (α : Type) where
  | ok (val : α)
  | err (msg : String)
  | crash
deriving DecidableEq, Repr

/-- The match-fragment computation of `ForgeMatchRule`.  A nil party contributes no
fragments; a group party calls the resolver from the table (a missed map entry is
the zero value whose `MakeMatchRule` is nil, so calling it panics); a namespace
party matches the named set `@ns-<namespace>`; a party with neither is an error.
The used-group / used-namespace map insertions the Go function performs on its
success path are split out into `markUsedParty`. -/
def ForgeMatchRule (env : Env) (party : Option Party) (clusterID : String)
    (position : MatchPosition) : ExecResult (List FwMatch) :=
  match party with
  | none => .ok []
  | some p =>
    match p.group with
    | some g =>
      match (lookupGroupFuncts g).MakeMatchRule with
      | none => .crash
      | some f =>
        match f env clusterID position with
        | .error e => .err e
        | .ok ms => .ok ms
    | none =>
      match p.nsName with
      | some ns => .ok [ipMatch ("@ns-" ++ ns) position]
      | none => .err "party must specify either a resource group or a namespace"

/-- Insertion into a Go map used as a set of keys, modelled on duplicate-free lists. -/
def insertUsed (used : List String) (k : String) : List String :=
  if k ∈ used then used else used ++ [k]

/-- The `usedResourceGroups` / `usedNamespaces` insertions `ForgeMatchRule` performs
when it succeeds on the given party. -/
def markUsedParty (party : Option Party) (usedRGs : List ResourceGroup)
    (usedNss : List String) : List ResourceGroup × List String :=
  match party with
  | none => (usedRGs, usedNss)
  | some p =>
    match p.group with
    | some g => (insertUsed usedRGs g, usedNss)
    | none =>
      match p.nsName with
      | some ns => (usedRGs, insertUsed usedNss ns)
      | none => (usedRGs, usedNss)

/-- One iteration of the rule loop of `ForgeFabricSpec`, producing the filter rule
named `allowed-traffic-<i>` whose action is accept exactly when the rule's action
equals `allow`, and whose match list is source fragments then destination fragments. -/
def forgeFilterRule (env : Env) (clusterID : String) (i : Nat) (rule : Rule) :
    ExecResult FilterRule :=
  match ForgeMatchRule env rule.source clusterID .src with
  | .crash => .crash
  | .err e => .err e
  | .ok sourceRules =>
    match ForgeMatchRule env rule.destination clusterID .dst with
    | .crash => .crash
    | .err e => .err e
    | .ok destRules =>
      .ok { name := some ("allowed-traffic-" ++ toString i),
            action := if rule.action ≠ ActionAllow then .drop else .accept,
            matchList := sourceRules ++ destRules }

/-- The rule loop of `ForgeFabricSpec`: compile each rule in order, threading the
used-group and used-namespace key sets. -/
def forgeAllowedTrafficRules (env : Env) (clusterID : String) :
    Nat → List Rule → List ResourceGroup → List String →
    ExecResult (List FilterRule × List ResourceGroup × List String)
  | _, [], usedRGs, usedNss => .ok ([], usedRGs, usedNss)
  | i, rule :: rest, usedRGs, usedNss =>
    match forgeFilterRule env clusterID i rule with
    | .crash => .crash
    | .err e => .err e
    | .ok fr =>
      let used1 := markUsedParty rule.source usedRGs usedNss
      let used2 := markUsedParty rule.destination used1.1 used1.2
      match forgeAllowedTrafficRules env clusterID (i + 1) rest used2.1 used2.2 with
      | .crash => .crash
      | .err e => .err e
      | .ok (frs, usedRGs', usedNss') => .ok (fr :: frs, usedRGs', usedNss')

/-- The set loop over used resource groups: skip groups whose `MakeSets` is nil,
append the produced sets in iteration order, abort on the first error. -/
def forgeResourceGroupSets (env : Env) (clusterID : String) :
    List ResourceGroup → Except String (List FwSet)
  | [] => .ok []
  | g :: rest =>
    match (lookupGroupFuncts g).MakeSets with
    | none => forgeResourceGroupSets env clusterID rest
    | some mk =>
      match mk env clusterID with
      | .error e => .error e
      | .ok sets => (forgeResourceGroupSets env clusterID rest).map (fun more => sets ++ more)

/-- The set loop over used namespaces: one `ns-<namespace>` pod-IP set each. -/
def forgeNamespaceSets (env : Env) : List String → Except String (List FwSet)
  | [] => .ok []
  | ns :: rest =>
    match GetPodsInNamespace env ns with
    | .error e => .error e
    | .ok pods =>
      (forgeNamespaceSets env rest).map
        (fun more => ForgePodIpsSet ("ns-" ++ ns) pods :: more)

/-- The fixed first chain rule accepting established/related conntrack state. -/
def baselineFilterRule : FilterRule :=
  { name := some "allow-established-related",
    action := .accept,
    matchList := [{ ctState := some ⟨[.established, .related]⟩, op := .eq }] }

/-- Go `ForgeFabricSpec`.  `rgIter` and `nsIter` model Go's unspecified `range` order
over the two used-key maps: given the key list they return the enumeration the
run happens to use (a valid run enumerates each key exactly once, i.e. a
permutation). -/
def ForgeFabricSpec (env : Env) (cfg : PeeringConnectivitySpec) (clusterID : String)
    (rgIter : List ResourceGroup → List ResourceGroup)
    (nsIter : List String → List String) : ExecResult FirewallConfigurationSpec :=
  match forgeAllowedTrafficRules env clusterID 0 cfg.rules [] [] with
  | .crash => .crash
  | .err e => .err e
  | .ok (frs, usedRGs, usedNss) =>
    match forgeResourceGroupSets env clusterID (rgIter usedRGs) with
    | .error e => .err e
    | .ok rgSets =>
      match forgeNamespaceSets env (nsIter usedNss) with
      | .error e => .err e
      | .ok nsSets =>
        .ok { table :=
          { name := some fabricTableName,
            family := some .ipv4,
            sets := rgSets ++ nsSets,
            chains := [{ name := some fabricChainName,
                         hook := some .postrouting,
                         policy := some .accept,
                         priority := some fabricChainPriority,
                         chainType := .filter,
                         rules := { filterRules := baselineFilterRule :: frs } }] } }

/-! ## Concrete environments and output projections used by concrete theorems -/

/-- A concrete collaborator state: no CIDRs announced yet, no pods, no offloaded
namespaces.  All list queries succeed with empty results. -/
def envEmpty : Env :=
  { currentClusterPodCIDR := .error "networks.ipam.liqo.io pod-cidr not found",
    remoteClusterPodCIDR := fun _ => .error "network not found",
    listPodsByLabel := fun _ _ => .ok [],
    listNamespaceOffloadings := .ok [],
    listPodsInNamespace := fun _ => .ok [] }

/-- All filter rules of all chains of a compiled spec, in order. -/
def specChainRules (spec : FirewallConfigurationSpec) : List FilterRule :=
  (spec.table.chains.map (fun c => c.rules.filterRules)).flatten

/-- The compiled filter rules after the baseline rule. -/
def specNonBaselineRules (spec : FirewallConfigurationSpec) : List FilterRule :=
  (specChainRules spec).drop 1

/-- The non-baseline rules of a compile outcome (empty when it did not return). -/
def resultNonBaselineRules (res : ExecResult FirewallConfigurationSpec) : List FilterRule :=
  match res with
  | .ok spec => specNonBaselineRules spec
  | _ => []

/-- Whether a compile outcome is a normal return. -/
def resultIsOk (res : ExecResult FirewallConfigurationSpec) : Bool :=
  match res with
  | .ok _ => true
  | _ => false

/-- The position-independent content of a compiled filter rule: its action and
match fragments, without the positional `allowed-traffic-<i>` name. -/
def ruleContent (fr : FilterRule) : FwAction × List FwMatch :=
  (fr.action, fr.matchList)

/-! ## Basic lemmas -/

theorem string_pos_length_of_ne_empty (s : String) (h : s ≠ "") : 0 < s.length := by
  rcases s with ⟨(_ | ⟨c, cs⟩)⟩
  · exact absurd rfl h
  · simp [String.length]

theorem forgeSetElements_length (P : List Pod) :
    (forgeSetElements P).length = (P.filter (fun pod => pod.statusPodIP ≠ "")).length := by
  induction P with
  | nil => rfl
  | cons pod rest ih =>
    by_cases hip : pod.statusPodIP = ""
    · simp [forgeSetElements, hip, ih]
    · simp [forgeSetElements, hip, ih]

/-! ## Claim theorems: namespace round trip, pod sets, pod enqueuer -/

/-- C7: for every non-empty cluster identifier, extracting the cluster ID from the
tenant namespace formed for it succeeds and returns the identifier unchanged. -/
theorem c7_cluster_id_roundtrip (clusterID : String) (h : clusterID ≠ "") :
    ExtractClusterID (GetClusterNamespace clusterID) = .ok clusterID := by
  have hlen : ¬ ((NamePrefixStr ++ "-" ++ clusterID).length ≤ (NamePrefixStr ++ "-").length) := by
    rw [String.length_append]
    have := string_pos_length_of_ne_empty clusterID h
    omega
  have hplen : NamePrefixStr.length + "-".length = (NamePrefixStr.data ++ ['-']).length := by
    decide
  have htake : (NamePrefixStr ++ "-" ++ clusterID).take (NamePrefixStr ++ "-").length =
      NamePrefixStr ++ "-" := by
    apply String.ext
    simp only [String.data_take, String.data_append, String.length_append]
    rw [hplen, List.take_left]
  have hdrop : (NamePrefixStr ++ "-" ++ clusterID).drop (NamePrefixStr ++ "-").length =
      clusterID := by
    apply String.ext
    simp only [String.data_drop, String.data_append, String.length_append]
    rw [hplen, List.drop_left]
  unfold ExtractClusterID GetClusterNamespace
  rw [if_neg (fun hcond => hcond.elim hlen (fun hne => hne htake)), hdrop]

/-- C7 witness at the concrete identifier `cluster-1`. -/
theorem c7_cluster_id_roundtrip_witness :
    ("cluster-1" : String) ≠ "" ∧
      ExtractClusterID (GetClusterNamespace "cluster-1") = .ok "cluster-1" :=
  ⟨by decide, c7_cluster_id_roundtrip "cluster-1" (by decide)⟩

/-- C8: a namespace that does not start with the tenant prefix followed by a hyphen,
or that equals the prefix alone (with or without the trailing hyphen), always makes
`ExtractClusterID` fail; no cluster identifier is returned. -/
theorem c8_invalid_namespace_fails (ns : String)
    (h : ns.take (NamePrefixStr ++ "-").length ≠ NamePrefixStr ++ "-" ∨
        ns = NamePrefixStr ∨ ns = NamePrefixStr ++ "-") :
    ∃ msg, ExtractClusterID ns = .error msg := by
  have hc : ns.length ≤ (NamePrefixStr ++ "-").length ∨
      ns.take (NamePrefixStr ++ "-").length ≠ NamePrefixStr ++ "-" := by
    rcases h with h | h | h
    · exact Or.inr h
    · subst h; left; decide
    · subst h; left; decide
  unfold ExtractClusterID
  rw [if_pos hc]
  exact ⟨_, rfl⟩

/-- C8 witness at the concrete namespace `default`. -/
theorem c8_invalid_namespace_fails_witness :
    (("default" : String).take (NamePrefixStr ++ "-").length ≠ NamePrefixStr ++ "-" ∨
        ("default" : String) = NamePrefixStr ∨ ("default" : String) = NamePrefixStr ++ "-") ∧
      ∃ msg, ExtractClusterID "default" = .error msg :=
  ⟨by decide, c8_invalid_namespace_fails "default" (by decide)⟩

/-- C9: the element count of `ForgePodIpsSet` equals the number of pods with a
non-empty status IP, and it is invariant under permuting the pod list. -/
theorem c9_pod_ips_set_count (setName : String) (P Q : List Pod) (hperm : P.Perm Q) :
    (ForgePodIpsSet setName P).elements.length =
        (P.filter (fun pod => pod.statusPodIP ≠ "")).length ∧
      (ForgePodIpsSet setName P).elements.length =
        (ForgePodIpsSet setName Q).elements.length := by
  refine ⟨forgeSetElements_length P, ?_⟩
  show (forgeSetElements P).length = (forgeSetElements Q).length
  rw [forgeSetElements_length P, forgeSetElements_length Q,
    ← List.countP_eq_length_filter, ← List.countP_eq_length_filter]
  exact hperm.countP_eq _

/-- C9 witness: two pods, one without an IP, in both orders. -/
theorem c9_pod_ips_set_count_witness :
    ([⟨[], "", "10.0.0.1"⟩, ⟨[], "", ""⟩] : List Pod).Perm
        [⟨[], "", ""⟩, ⟨[], "", "10.0.0.1"⟩] ∧
      ((ForgePodIpsSet "s" [⟨[], "", "10.0.0.1"⟩, ⟨[], "", ""⟩]).elements.length =
          (([⟨[], "", "10.0.0.1"⟩, ⟨[], "", ""⟩] : List Pod).filter
            (fun pod => pod.statusPodIP ≠ "")).length ∧
        (ForgePodIpsSet "s" [⟨[], "", "10.0.0.1"⟩, ⟨[], "", ""⟩]).elements.length =
          (ForgePodIpsSet "s" [⟨[], "", ""⟩, ⟨[], "", "10.0.0.1"⟩]).elements.length) :=
  ⟨by decide, c9_pod_ips_set_count "s" _ _ (by decide)⟩

/-- C10: a pod carrying the shadow-pod marker label with its expected value but an
empty `Spec.NodeName` produces zero reconcile requests. -/
theorem c10_unscheduled_shadow_pod_enqueues_nothing (pod : Pod)
    (hlabel : lookupLabel pod.labels LocalPodLabelKey = some LocalPodLabelValue)
    (hnode : pod.specNodeName = "") :
    podEnqueuer pod = [] := by
  unfold podEnqueuer
  rw [if_pos hlabel, if_pos hnode]

/-- C10 witness at a concrete unscheduled shadow pod. -/
theorem c10_unscheduled_shadow_pod_enqueues_nothing_witness :
    lookupLabel ([(LocalPodLabelKey, LocalPodLabelValue)] : List (String × String))
        LocalPodLabelKey = some LocalPodLabelValue ∧
      (⟨[(LocalPodLabelKey, LocalPodLabelValue)], "", ""⟩ : Pod).specNodeName = "" ∧
      podEnqueuer ⟨[(LocalPodLabelKey, LocalPodLabelValue)], "", ""⟩ = [] :=
  ⟨by decide, by decide,
    c10_unscheduled_shadow_pod_enqueues_nothing _ (by decide) (by decide)⟩

/-! ## Counterexample and code-bug theorems for the compiler -/

/-- C2 counterexample: swapping the two rules of `[deny-all, allow-all]` does not
permute the compiled non-baseline rules identically, because the generated rule
names are positional (`allowed-traffic-<i>`) and get renumbered: the compiled list
for the swapped input differs from the swap (reverse) of the original compiled list. -/
theorem c2_positional_names_break_permutation :
    resultNonBaselineRules
        (ForgeFabricSpec envEmpty ⟨[{ action := "allow" }, { action := "deny" }]⟩ "c1" id id) ≠
      (resultNonBaselineRules
        (ForgeFabricSpec envEmpty ⟨[{ action := "deny" }, { action := "allow" }]⟩
          "c1" id id)).reverse := by
  decide

/-- C3 counterexample: a rule whose `Action` field is absent (the Go zero value `""`)
compiles to the drop action, not accept. -/
theorem c3_absent_action_compiles_to_drop :
    (resultNonBaselineRules
        (ForgeFabricSpec envEmpty ⟨[{ action := "" }]⟩ "c1" id id)).map
          (fun fr => fr.action) = [.drop] ∧
      FwAction.drop ≠ FwAction.accept := by
  decide

/-- C4: a party naming a resource group with no entry in the resolver table makes the
compiler index the Go map at a missing key; the zero-value `MakeMatchRule` is a nil
function and calling it panics: the run crashes instead of returning an error. -/
theorem c4_unknown_group_crashes :
    ForgeMatchRule envEmpty (some { group := some "unknown-group" }) "c1" .src = .crash ∧
      ForgeFabricSpec envEmpty
          ⟨[{ action := "allow", source := some { group := some "unknown-group" } }]⟩
          "c1" id id = .crash ∧
      (∀ msg, (ExecResult.crash : ExecResult FirewallConfigurationSpec) ≠ .err msg) ∧
      (∀ spec, (ExecResult.crash : ExecResult FirewallConfigurationSpec) ≠ .ok spec) := by
  refine ⟨by decide, by decide, fun msg h => ?_, fun spec h => ?_⟩ <;> cases h

/-- C5: two runs of `ForgeFabricSpec` on the same policy, cluster ID and collaborator
state, differing only in the order Go's `range` happens to enumerate the
`usedResourceGroups` map (both orders enumerate each key exactly once), both return
normally but produce different specifications: the table's sets are emitted in map
iteration order. -/
theorem c5_set_order_follows_map_iteration_order :
    (∀ l : List String, (List.reverse l).Perm l) ∧
      resultIsOk (ForgeFabricSpec envEmpty
        ⟨[{ action := "allow", source := some { group := some "offloaded" } },
          { action := "allow", source := some { group := some "vc-local" } }]⟩
        "c1" id id) = true ∧
      resultIsOk (ForgeFabricSpec envEmpty
        ⟨[{ action := "allow", source := some { group := some "offloaded" } },
          { action := "allow", source := some { group := some "vc-local" } }]⟩
        "c1" List.reverse id) = true ∧
      ForgeFabricSpec envEmpty
          ⟨[{ action := "allow", source := some { group := some "offloaded" } },
            { action := "allow", source := some { group := some "vc-local" } }]⟩
          "c1" id id ≠
        ForgeFabricSpec envEmpty
          ⟨[{ action := "allow", source := some { group := some "offloaded" } },
            { action := "allow", source := some { group := some "vc-local" } }]⟩
          "c1" List.reverse id := by
  refine ⟨fun l => List.reverse_perm l, by decide, by decide, by decide⟩

/-! ## Structural lemmas about the rule loop -/

/-- On a normal return, the rule loop produces exactly one filter rule per input
rule, and the rule at position `j` is the per-rule compilation of input rule `j`
at chain index `i + j`. -/
theorem forgeAllowedTrafficRules_ok (env : Env) (clusterID : String) :
    ∀ (rules : List Rule) (i : Nat) (usedRGs : List ResourceGroup) (usedNss : List String)
      (frs : List FilterRule) (usedRGs' : List ResourceGroup) (usedNss' : List String),
      forgeAllowedTrafficRules env clusterID i rules usedRGs usedNss =
          .ok (frs, usedRGs', usedNss') →
      frs.length = rules.length ∧
        ∀ j r, rules[j]? = some r →
          ∃ fr, forgeFilterRule env clusterID (i + j) r = .ok fr ∧ frs[j]? = some fr := by
  intro rules
  induction rules with
  | nil =>
    intro i rgs nss frs rgs' nss' h
    simp only [forgeAllowedTrafficRules, ExecResult.ok.injEq, Prod.mk.injEq] at h
    obtain ⟨h1, _, _⟩ := h
    subst h1
    simp
  | cons rule rest ih =>
    intro i rgs nss frs rgs' nss' h
    unfold forgeAllowedTrafficRules at h
    cases hfr : forgeFilterRule env clusterID i rule with
    | crash => rw [hfr] at h; simp at h
    | err e => rw [hfr] at h; simp at h
    | ok fr =>
      rw [hfr] at h
      simp only at h
      cases hrec : forgeAllowedTrafficRules env clusterID (i + 1) rest
          (markUsedParty rule.destination (markUsedParty rule.source rgs nss).1
            (markUsedParty rule.source rgs nss).2).1
          (markUsedParty rule.destination (markUsedParty rule.source rgs nss).1
            (markUsedParty rule.source rgs nss).2).2 with
      | crash => rw [hrec] at h; simp at h
      | err e => rw [hrec] at h; simp at h
      | ok res =>
        obtain ⟨frs₀, rgs₀, nss₀⟩ := res
        rw [hrec] at h
        simp only [ExecResult.ok.injEq, Prod.mk.injEq] at h
        obtain ⟨h1, _, _⟩ := h
        subst h1
        obtain ⟨ihlen, ihchar⟩ := ih (i + 1) _ _ _ _ _ hrec
        refine ⟨by simp [ihlen], ?_⟩
        intro j r hj
        cases j with
        | zero =>
          simp only [List.getElem?_cons_zero, Option.some.injEq] at hj
          subst hj
          exact ⟨fr, by simpa using hfr, by simp⟩
        | succ j' =>
          simp only [List.getElem?_cons_succ] at hj
          obtain ⟨fr', hfr', hget⟩ := ihchar j' r hj
          refine ⟨fr', ?_, by simpa using hget⟩
          have : i + 1 + j' = i + (j' + 1) := by omega
          rwa [this] at hfr'

/-! ## C1: compiled rule count -/

/-- C1: whenever `ForgeFabricSpec` returns normally (for any collaborator state and
any valid map-iteration orders), the spec has a single chain whose filter-rule count
is `1 + len(Spec.Rules)`; with no input rules the chain is exactly the baseline rule
and the table has zero sets. -/
theorem c1_compiled_rule_count (env : Env) (cfg : PeeringConnectivitySpec)
    (clusterID : String) (rgIter : List ResourceGroup → List ResourceGroup)
    (nsIter : List String → List String) (spec : FirewallConfigurationSpec)
    (hrg : ∀ l, (rgIter l).Perm l) (hns : ∀ l, (nsIter l).Perm l)
    (h : ForgeFabricSpec env cfg clusterID rgIter nsIter = .ok spec) :
    ∃ chain, spec.table.chains = [chain] ∧
      chain.rules.filterRules.length = 1 + cfg.rules.length ∧
      (cfg.rules = [] →
        chain.rules.filterRules = [baselineFilterRule] ∧ spec.table.sets = []) := by
  unfold ForgeFabricSpec at h
  cases hloop : forgeAllowedTrafficRules env clusterID 0 cfg.rules [] [] with
  | crash => rw [hloop] at h; simp at h
  | err e => rw [hloop] at h; simp at h
  | ok res =>
    obtain ⟨frs, usedRGs, usedNss⟩ := res
    rw [hloop] at h
    simp only at h
    cases hsets : forgeResourceGroupSets env clusterID (rgIter usedRGs) with
    | error e => rw [hsets] at h; simp at h
    | ok rgSets =>
      rw [hsets] at h
      simp only at h
      cases hnsets : forgeNamespaceSets env (nsIter usedNss) with
      | error e => rw [hnsets] at h; simp at h
      | ok nsSets =>
        rw [hnsets] at h
        simp only [ExecResult.ok.injEq] at h
        subst h
        obtain ⟨hlen, _⟩ := forgeAllowedTrafficRules_ok env clusterID _ _ _ _ _ _ _ hloop
        refine ⟨_, rfl, by simp [hlen, Nat.add_comm], ?_⟩
        intro he
        rw [he] at hloop
        simp only [forgeAllowedTrafficRules, ExecResult.ok.injEq, Prod.mk.injEq] at hloop
        obtain ⟨h1, h2, h3⟩ := hloop
        subst h1; subst h2; subst h3
        have hrgnil : rgIter [] = [] := (hrg []).eq_nil
        have hnsnil : nsIter [] = [] := (hns []).eq_nil
        rw [hrgnil] at hsets
        rw [hnsnil] at hnsets
        simp only [forgeResourceGroupSets, Except.ok.injEq] at hsets
        simp only [forgeNamespaceSets, Except.ok.injEq] at hnsets
        subst hsets; subst hnsets
        simp

/-- The compiled spec a successful run returns, with a placeholder otherwise. -/
def specOfResult (res : ExecResult FirewallConfigurationSpec) : FirewallConfigurationSpec :=
  match res with
  | .ok s => s
  | _ => ⟨⟨none, none, [], []⟩⟩

/-- C1 witness: the empty policy against the empty collaborator state. -/
theorem c1_compiled_rule_count_witness :
    (∀ l : List String, (id l).Perm l) ∧
      ForgeFabricSpec envEmpty ⟨[]⟩ "c1" id id =
        .ok (specOfResult (ForgeFabricSpec envEmpty ⟨[]⟩ "c1" id id)) ∧
      ∃ chain, (specOfResult (ForgeFabricSpec envEmpty ⟨[]⟩ "c1" id id)).table.chains =
          [chain] ∧
        chain.rules.filterRules.length = 1 + ([] : List Rule).length ∧
        (([] : List Rule) = [] →
          chain.rules.filterRules = [baselineFilterRule] ∧
            (specOfResult (ForgeFabricSpec envEmpty ⟨[]⟩ "c1" id id)).table.sets = []) :=
  ⟨fun l => List.Perm.refl l,
    by decide,
    c1_compiled_rule_count envEmpty ⟨[]⟩ "c1" id id _
      (fun l => List.Perm.refl l) (fun l => List.Perm.refl l) (by decide)⟩

/-! ## C2: order preservation -/

/-- The chain index only enters a compiled rule through its name: two compilations
of the same rule at different positions agree on action and match fragments. -/
theorem forgeFilterRule_content_eq (env : Env) (clusterID : String) (i i' : Nat)
    (r : Rule) (fr fr' : FilterRule)
    (h : forgeFilterRule env clusterID i r = .ok fr)
    (h' : forgeFilterRule env clusterID i' r = .ok fr') :
    ruleContent fr = ruleContent fr' := by
  unfold forgeFilterRule at h h'
  cases h1 : ForgeMatchRule env r.source clusterID .src <;> rw [h1] at h h' <;>
    try simp at h
  cases h2 : ForgeMatchRule env r.destination clusterID .dst <;> rw [h2] at h h' <;>
    try simp at h
  simp only [ExecResult.ok.injEq] at h h'
  subst h; subst h'
  by_cases ha : r.action = ActionAllow <;> simp [ruleContent, ha]

/-- On a normal return, `spec` has exactly one chain whose rules are the baseline
rule followed by the loop output. -/
theorem forgeFabricSpec_ok_shape (env : Env) (cfg : PeeringConnectivitySpec)
    (clusterID : String) (rgIter : List ResourceGroup → List ResourceGroup)
    (nsIter : List String → List String) (spec : FirewallConfigurationSpec)
    (h : ForgeFabricSpec env cfg clusterID rgIter nsIter = .ok spec) :
    ∃ frs usedRGs usedNss rgSets nsSets,
      forgeAllowedTrafficRules env clusterID 0 cfg.rules [] [] =
          .ok (frs, usedRGs, usedNss) ∧
        forgeResourceGroupSets env clusterID (rgIter usedRGs) = .ok rgSets ∧
        forgeNamespaceSets env (nsIter usedNss) = .ok nsSets ∧
        spec.table.sets = rgSets ++ nsSets ∧
        specChainRules spec = baselineFilterRule :: frs ∧
        specNonBaselineRules spec = frs := by
  unfold ForgeFabricSpec at h
  cases hloop : forgeAllowedTrafficRules env clusterID 0 cfg.rules [] [] with
  | crash => rw [hloop] at h; simp at h
  | err e => rw [hloop] at h; simp at h
  | ok res =>
    obtain ⟨frs, usedRGs, usedNss⟩ := res
    rw [hloop] at h
    simp only at h
    cases hsets : forgeResourceGroupSets env clusterID (rgIter usedRGs) with
    | error e => rw [hsets] at h; simp at h
    | ok rgSets =>
      rw [hsets] at h
      simp only at h
      cases hnsets : forgeNamespaceSets env (nsIter usedNss) with
      | error e => rw [hnsets] at h; simp at h
      | ok nsSets =>
        rw [hnsets] at h
        simp only [ExecResult.ok.injEq] at h
        subst h
        exact ⟨frs, usedRGs, usedNss, rgSets, nsSets, rfl, hsets, hnsets, rfl,
          by simp [specChainRules], by simp [specNonBaselineRules, specChainRules]⟩

/-- C2 (amended): on every normal return the compiled filter rule at chain position
`1 + j` is the compilation of input rule `j` (so order is preserved exactly and
identical rules are kept, never reordered, sorted or deduplicated); permuting the
input rule list permutes the compiled non-baseline rules' action and match content
identically, while the auto-generated positional names `allowed-traffic-<j>` are
renumbered to the new positions. -/
theorem c2_order_preservation (env : Env) (clusterID : String)
    (rgIter rgIter' : List ResourceGroup → List ResourceGroup)
    (nsIter nsIter' : List String → List String)
    (cfg cfg' : PeeringConnectivitySpec) (σ : Nat → Nat)
    (spec spec' : FirewallConfigurationSpec)
    (hlen : cfg'.rules.length = cfg.rules.length)
    (hperm : ∀ j, j < cfg'.rules.length → cfg'.rules[j]? = cfg.rules[σ j]?)
    (h : ForgeFabricSpec env cfg clusterID rgIter nsIter = .ok spec)
    (h' : ForgeFabricSpec env cfg' clusterID rgIter' nsIter' = .ok spec') :
    (specNonBaselineRules spec).length = cfg.rules.length ∧
      (∀ j r, cfg.rules[j]? = some r →
        ∃ fr, forgeFilterRule env clusterID j r = .ok fr ∧
          (specNonBaselineRules spec)[j]? = some fr) ∧
      (∀ j, j < cfg.rules.length →
        ((specNonBaselineRules spec')[j]?).map ruleContent =
          ((specNonBaselineRules spec)[σ j]?).map ruleContent) := by
  obtain ⟨frs, _, _, _, _, hloop, _, _, _, _, htail⟩ :=
    forgeFabricSpec_ok_shape env cfg clusterID rgIter nsIter spec h
  obtain ⟨frs', _, _, _, _, hloop', _, _, _, _, htail'⟩ :=
    forgeFabricSpec_ok_shape env cfg' clusterID rgIter' nsIter' spec' h'
  obtain ⟨hflen, hchar⟩ := forgeAllowedTrafficRules_ok env clusterID _ _ _ _ _ _ _ hloop
  obtain ⟨hflen', hchar'⟩ := forgeAllowedTrafficRules_ok env clusterID _ _ _ _ _ _ _ hloop'
  rw [htail, htail']
  refine ⟨hflen, ?_, ?_⟩
  · intro j r hj
    obtain ⟨fr, hfr, hget⟩ := hchar j r hj
    exact ⟨fr, by simpa using hfr, hget⟩
  · intro j hj
    have hj' : j < cfg'.rules.length := by omega
    cases hr : cfg.rules[σ j]? with
    | none =>
      have : cfg'.rules[j]? = none := by rw [hperm j hj', hr]
      have : ¬ (j < cfg'.rules.length) := by
        simpa [List.getElem?_eq_none_iff] using this
      exact absurd hj' this
    | some r =>
      have hr' : cfg'.rules[j]? = some r := by rw [hperm j hj', hr]
      obtain ⟨fr, hfr, hget⟩ := hchar (σ j) r hr
      obtain ⟨fr', hfr', hget'⟩ := hchar' j r hr'
      rw [hget, hget']
      exact congrArg some
        (forgeFilterRule_content_eq env clusterID (0 + j) (0 + σ j) r fr' fr hfr' hfr)

/-- C2 witness: the two-rule policy `[deny-all, allow-all]` and its swap under the
transposition. -/
theorem c2_order_preservation_witness :
    (⟨[{ action := "allow" }, { action := "deny" }]⟩ :
        PeeringConnectivitySpec).rules.length =
        (⟨[{ action := "deny" }, { action := "allow" }]⟩ :
          PeeringConnectivitySpec).rules.length ∧
      (∀ j, j < (⟨[{ action := "allow" }, { action := "deny" }]⟩ :
          PeeringConnectivitySpec).rules.length →
        (⟨[{ action := "allow" }, { action := "deny" }]⟩ :
            PeeringConnectivitySpec).rules[j]? =
          (⟨[{ action := "deny" }, { action := "allow" }]⟩ :
            PeeringConnectivitySpec).rules[1 - j]?) ∧
      ((specNonBaselineRules (specOfResult (ForgeFabricSpec envEmpty
            ⟨[{ action := "deny" }, { action := "allow" }]⟩ "c1" id id))).length =
          (⟨[{ action := "deny" }, { action := "allow" }]⟩ :
            PeeringConnectivitySpec).rules.length ∧
        (∀ j r, (⟨[{ action := "deny" }, { action := "allow" }]⟩ :
            PeeringConnectivitySpec).rules[j]? = some r →
          ∃ fr, forgeFilterRule envEmpty "c1" j r = .ok fr ∧
            (specNonBaselineRules (specOfResult (ForgeFabricSpec envEmpty
              ⟨[{ action := "deny" }, { action := "allow" }]⟩ "c1" id id)))[j]? = some fr) ∧
        (∀ j, j < (⟨[{ action := "deny" }, { action := "allow" }]⟩ :
            PeeringConnectivitySpec).rules.length →
          ((specNonBaselineRules (specOfResult (ForgeFabricSpec envEmpty
              ⟨[{ action := "allow" }, { action := "deny" }]⟩ "c1" id id)))[j]?).map
              ruleContent =
            ((specNonBaselineRules (specOfResult (ForgeFabricSpec envEmpty
              ⟨[{ action := "deny" }, { action := "allow" }]⟩ "c1" id id)))[1 - j]?).map
              ruleContent)) :=
  ⟨by decide, by decide,
    c2_order_preservation envEmpty "c1" id id id id
      ⟨[{ action := "deny" }, { action := "allow" }]⟩
      ⟨[{ action := "allow" }, { action := "deny" }]⟩
      (fun j => 1 - j) _ _ (by decide) (by decide) (by decide) (by decide)⟩

/-! ## C3: action compilation -/

/-- C3 (amended): a compiled rule's action is accept exactly when the input rule's
`Action` equals `allow`; any other value, including the zero value of an absent
field, compiles to drop. -/
theorem c3_action_accept_iff_allow (env : Env) (clusterID : String) (i : Nat)
    (rule : Rule) (fr : FilterRule)
    (h : forgeFilterRule env clusterID i rule = .ok fr) :
    fr.action = .accept ↔ rule.action = ActionAllow := by
  unfold forgeFilterRule at h
  cases h1 : ForgeMatchRule env rule.source clusterID .src with
  | crash => rw [h1] at h; simp at h
  | err e => rw [h1] at h; simp at h
  | ok srcMs =>
    rw [h1] at h
    simp only at h
    cases h2 : ForgeMatchRule env rule.destination clusterID .dst with
    | crash => rw [h2] at h; simp at h
    | err e => rw [h2] at h; simp at h
    | ok dstMs =>
      rw [h2] at h
      simp only [ExecResult.ok.injEq] at h
      subst h
      by_cases ha : rule.action = ActionAllow <;> simp [ha]

/-- C3 witness: an explicit `allow` rule compiles to an accept rule. -/
theorem c3_action_accept_iff_allow_witness :
    forgeFilterRule envEmpty "c1" 0 { action := "allow" } =
        .ok ⟨some "allowed-traffic-0", .accept, []⟩ ∧
      ((⟨some "allowed-traffic-0", .accept, []⟩ : FilterRule).action = .accept ↔
        ({ action := "allow" } : Rule).action = ActionAllow) :=
  ⟨by decide, c3_action_accept_iff_allow envEmpty "c1" 0 _ _ (by decide)⟩

/-! ## C6: used groups, used namespaces, dead-group elimination -/

/-- Whether a party is a group party naming `g` (the branch of `ForgeMatchRule`
that records `g` in `usedResourceGroups`). -/
def partyHasGroup (party : Option Party) (g : ResourceGroup) : Bool :=
  match party with
  | none => false
  | some p => p.group == some g

/-- Whether a party is a namespace party naming `ns` (the branch of
`ForgeMatchRule` that records `ns` in `usedNamespaces`; a party with a group set
never reaches it). -/
def partyHasNamespace (party : Option Party) (ns : String) : Bool :=
  match party with
  | none => false
  | some p => p.group == none && p.nsName == some ns

/-- Whether a rule references resource group `g` through either of its parties. -/
def ruleMentionsGroup (rule : Rule) (g : ResourceGroup) : Bool :=
  partyHasGroup rule.source g || partyHasGroup rule.destination g

/-- Whether a rule references namespace `ns` through either of its parties. -/
def ruleMentionsNamespace (rule : Rule) (ns : String) : Bool :=
  partyHasNamespace rule.source ns || partyHasNamespace rule.destination ns

/-- The accumulated used-group and used-namespace key sets after the whole rule
loop, as a pure scan (source party then destination party, rule by rule). -/
def markUsedAll : List Rule → List ResourceGroup → List String →
    List ResourceGroup × List String
  | [], usedRGs, usedNss => (usedRGs, usedNss)
  | rule :: rest, usedRGs, usedNss =>
    markUsedAll rest
      (markUsedParty rule.destination (markUsedParty rule.source usedRGs usedNss).1
        (markUsedParty rule.source usedRGs usedNss).2).1
      (markUsedParty rule.destination (markUsedParty rule.source usedRGs usedNss).1
        (markUsedParty rule.source usedRGs usedNss).2).2

/-- The fixed set name each group's `MakeSets` emits (`none` for the CIDR-matching
groups that have no `MakeSets`, and for unknown groups). -/
def groupSetNameOf (g : ResourceGroup) : Option String :=
  if g = ResourceGroupOffloaded then some "offloaded"
  else if g = ResourceGroupVcLocal then some "vclocal"
  else if g = ResourceGroupVcRemote then some "vcremote"
  else if g = ResourceGroupPrivateSubnets then some "privatesubnets"
  else none

theorem mem_insertUsed (l : List String) (k a : String) :
    a ∈ insertUsed l k ↔ a ∈ l ∨ a = k := by
  unfold insertUsed
  split_ifs with hk
  · constructor
    · exact Or.inl
    · rintro (h | rfl)
      · exact h
      · exact hk
  · simp [List.mem_append]

theorem nodup_insertUsed (l : List String) (k : String) (h : l.Nodup) :
    (insertUsed l k).Nodup := by
  unfold insertUsed
  split_ifs with hk
  · exact h
  · simp [List.nodup_append, h, hk]

theorem mem_markUsedParty_rg (party : Option Party) (usedRGs : List ResourceGroup)
    (usedNss : List String) (g : ResourceGroup) :
    g ∈ (markUsedParty party usedRGs usedNss).1 ↔
      g ∈ usedRGs ∨ partyHasGroup party g = true := by
  cases party with
  | none => simp [markUsedParty, partyHasGroup]
  | some p =>
    cases hg : p.group with
    | some g' =>
      simp only [markUsedParty, hg, partyHasGroup, mem_insertUsed, beq_iff_eq,
        Option.some.injEq]
      constructor
      · rintro (h | rfl)
        · exact Or.inl h
        · exact Or.inr rfl
      · rintro (h | rfl)
        · exact Or.inl h
        · exact Or.inr rfl
    | none =>
      cases hn : p.nsName <;> simp [markUsedParty, partyHasGroup, hg, hn]

theorem mem_markUsedParty_ns (party : Option Party) (usedRGs : List ResourceGroup)
    (usedNss : List String) (ns : String) :
    ns ∈ (markUsedParty party usedRGs usedNss).2 ↔
      ns ∈ usedNss ∨ partyHasNamespace party ns = true := by
  cases party with
  | none => simp [markUsedParty, partyHasNamespace]
  | some p =>
    cases hg : p.group with
    | some g' => simp [markUsedParty, partyHasNamespace, hg]
    | none =>
      cases hn : p.nsName with
      | some ns' =>
        simp only [markUsedParty, hg, hn, partyHasNamespace, mem_insertUsed,
          beq_iff_eq, Option.some.injEq, beq_self_eq_true, Bool.true_and]
        constructor
        · rintro (h | rfl)
          · exact Or.inl h
          · exact Or.inr rfl
        · rintro (h | rfl)
          · exact Or.inl h
          · exact Or.inr rfl
      | none => simp [markUsedParty, partyHasNamespace, hg, hn]

theorem nodup_markUsedParty (party : Option Party) (usedRGs : List ResourceGroup)
    (usedNss : List String) (h1 : usedRGs.Nodup) (h2 : usedNss.Nodup) :
    (markUsedParty party usedRGs usedNss).1.Nodup ∧
      (markUsedParty party usedRGs usedNss).2.Nodup := by
  cases party with
  | none => exact ⟨h1, h2⟩
  | some p =>
    cases hg : p.group with
    | some g' =>
      simp only [markUsedParty, hg]
      exact ⟨nodup_insertUsed _ _ h1, h2⟩
    | none =>
      cases hn : p.nsName with
      | some ns' =>
        simp only [markUsedParty, hg, hn]
        exact ⟨h1, nodup_insertUsed _ _ h2⟩
      | none =>
        simp only [markUsedParty, hg, hn]
        exact ⟨h1, h2⟩

theorem mem_markUsedAll_rg :
    ∀ (rules : List Rule) (usedRGs : List ResourceGroup) (usedNss : List String)
      (g : ResourceGroup),
      g ∈ (markUsedAll rules usedRGs usedNss).1 ↔
        g ∈ usedRGs ∨ ∃ rule ∈ rules, ruleMentionsGroup rule g = true := by
  intro rules
  induction rules with
  | nil => intro usedRGs usedNss g; simp [markUsedAll]
  | cons rule rest ih =>
    intro usedRGs usedNss g
    rw [markUsedAll, ih, mem_markUsedParty_rg, mem_markUsedParty_rg]
    simp only [ruleMentionsGroup, Bool.or_eq_true, List.mem_cons]
    constructor
    · rintro (((h | h) | h) | ⟨r, hr, hm⟩)
      · exact Or.inl h
      · exact Or.inr ⟨rule, Or.inl rfl, Or.inl h⟩
      · exact Or.inr ⟨rule, Or.inl rfl, Or.inr h⟩
      · exact Or.inr ⟨r, Or.inr hr, hm⟩
    · rintro (h | ⟨r, (rfl | hr), hm⟩)
      · exact Or.inl (Or.inl (Or.inl h))
      · rcases hm with hm | hm
        · exact Or.inl (Or.inl (Or.inr hm))
        · exact Or.inl (Or.inr hm)
      · exact Or.inr ⟨r, hr, hm⟩

theorem mem_markUsedAll_ns :
    ∀ (rules : List Rule) (usedRGs : List ResourceGroup) (usedNss : List String)
      (ns : String),
      ns ∈ (markUsedAll rules usedRGs usedNss).2 ↔
        ns ∈ usedNss ∨ ∃ rule ∈ rules, ruleMentionsNamespace rule ns = true := by
  intro rules
  induction rules with
  | nil => intro usedRGs usedNss ns; simp [markUsedAll]
  | cons rule rest ih =>
    intro usedRGs usedNss ns
    rw [markUsedAll, ih, mem_markUsedParty_ns, mem_markUsedParty_ns]
    simp only [ruleMentionsNamespace, Bool.or_eq_true, List.mem_cons]
    constructor
    · rintro (((h | h) | h) | ⟨r, hr, hm⟩)
      · exact Or.inl h
      · exact Or.inr ⟨rule, Or.inl rfl, Or.inl h⟩
      · exact Or.inr ⟨rule, Or.inl rfl, Or.inr h⟩
      · exact Or.inr ⟨r, Or.inr hr, hm⟩
    · rintro (h | ⟨r, (rfl | hr), hm⟩)
      · exact Or.inl (Or.inl (Or.inl h))
      · rcases hm with hm | hm
        · exact Or.inl (Or.inl (Or.inr hm))
        · exact Or.inl (Or.inr hm)
      · exact Or.inr ⟨r, hr, hm⟩

theorem nodup_markUsedAll :
    ∀ (rules : List Rule) (usedRGs : List ResourceGroup) (usedNss : List String),
      usedRGs.Nodup → usedNss.Nodup →
      (markUsedAll rules usedRGs usedNss).1.Nodup ∧
        (markUsedAll rules usedRGs usedNss).2.Nodup := by
  intro rules
  induction rules with
  | nil => intro usedRGs usedNss h1 h2; exact ⟨h1, h2⟩
  | cons rule rest ih =>
    intro usedRGs usedNss h1 h2
    rw [markUsedAll]
    obtain ⟨hs1, hs2⟩ := nodup_markUsedParty rule.source usedRGs usedNss h1 h2
    obtain ⟨hd1, hd2⟩ := nodup_markUsedParty rule.destination _ _ hs1 hs2
    exact ih _ _ hd1 hd2

/-- On a normal return, the used-key sets the rule loop accumulates are exactly the
pure scan `markUsedAll` of the input rules. -/
theorem forgeAllowedTrafficRules_used (env : Env) (clusterID : String) :
    ∀ (rules : List Rule) (i : Nat) (usedRGs : List ResourceGroup) (usedNss : List String)
      (frs : List FilterRule) (usedRGs' : List ResourceGroup) (usedNss' : List String),
      forgeAllowedTrafficRules env clusterID i rules usedRGs usedNss =
          .ok (frs, usedRGs', usedNss') →
      (usedRGs', usedNss') = markUsedAll rules usedRGs usedNss := by
  intro rules
  induction rules with
  | nil =>
    intro i rgs nss frs rgs' nss' h
    simp only [forgeAllowedTrafficRules, ExecResult.ok.injEq, Prod.mk.injEq] at h
    obtain ⟨_, h2, h3⟩ := h
    subst h2; subst h3
    rfl
  | cons rule rest ih =>
    intro i rgs nss frs rgs' nss' h
    unfold forgeAllowedTrafficRules at h
    cases hfr : forgeFilterRule env clusterID i rule with
    | crash => rw [hfr] at h; simp at h
    | err e => rw [hfr] at h; simp at h
    | ok fr =>
      rw [hfr] at h
      simp only at h
      cases hrec : forgeAllowedTrafficRules env clusterID (i + 1) rest
          (markUsedParty rule.destination (markUsedParty rule.source rgs nss).1
            (markUsedParty rule.source rgs nss).2).1
          (markUsedParty rule.destination (markUsedParty rule.source rgs nss).1
            (markUsedParty rule.source rgs nss).2).2 with
      | crash => rw [hrec] at h; simp at h
      | err e => rw [hrec] at h; simp at h
      | ok res =>
        obtain ⟨frs₀, rgs₀, nss₀⟩ := res
        rw [hrec] at h
        simp only [ExecResult.ok.injEq, Prod.mk.injEq] at h
        obtain ⟨_, h2, h3⟩ := h
        subst h2; subst h3
        rw [markUsedAll]
        exact ih (i + 1) _ _ _ _ _ hrec

theorem except_map_ok {α β : Type} (f : α → β) (e : Except String α) (b : β)
    (h : e.map f = .ok b) : ∃ a, e = .ok a ∧ b = f a := by
  cases e with
  | error e' => simp [Except.map] at h
  | ok a => exact ⟨a, rfl, by simpa [Except.map] using h.symm⟩

/-- Every set a group's `MakeSets` emits carries that group's fixed set name. -/
theorem makeSets_names (g : ResourceGroup) (mk : Env → String → Except String (List FwSet))
    (env : Env) (clusterID : String) (gsets : List FwSet) (s : FwSet)
    (hmk : (lookupGroupFuncts g).MakeSets = some mk)
    (hok : mk env clusterID = .ok gsets) (hs : s ∈ gsets) :
    groupSetNameOf g = some s.name := by
  by_cases h3 : g = ResourceGroupOffloaded
  · subst h3
    have hl : (lookupGroupFuncts ResourceGroupOffloaded).MakeSets =
        some (fun env clusterID =>
          (GetPodsFromConsumer env clusterID).map
            (fun pods => [ForgePodIpsSet "offloaded" pods])) := rfl
    rw [hl] at hmk
    simp only [Option.some.injEq] at hmk
    subst hmk
    obtain ⟨pods, _, hb⟩ := except_map_ok _ _ _ hok
    subst hb
    simp only [List.mem_singleton] at hs
    subst hs
    rfl
  by_cases h4 : g = ResourceGroupVcLocal
  · subst h4
    have hl : (lookupGroupFuncts ResourceGroupVcLocal).MakeSets =
        some (fun env _ =>
          (GetPodsInOffloadedNamespaces env).map
            (fun pods => [ForgePodIpsSet "vclocal" pods])) := rfl
    rw [hl] at hmk
    simp only [Option.some.injEq] at hmk
    subst hmk
    obtain ⟨pods, _, hb⟩ := except_map_ok _ _ _ hok
    subst hb
    simp only [List.mem_singleton] at hs
    subst hs
    rfl
  by_cases h5 : g = ResourceGroupVcRemote
  · subst h5
    have hl : (lookupGroupFuncts ResourceGroupVcRemote).MakeSets =
        some (fun env clusterID =>
          (GetPodsOffloadedToProvider env clusterID).map
            (fun pods => [ForgePodIpsSet "vcremote" pods])) := rfl
    rw [hl] at hmk
    simp only [Option.some.injEq] at hmk
    subst hmk
    obtain ⟨pods, _, hb⟩ := except_map_ok _ _ _ hok
    subst hb
    simp only [List.mem_singleton] at hs
    subst hs
    rfl
  by_cases h6 : g = ResourceGroupPrivateSubnets
  · subst h6
    have hl : (lookupGroupFuncts ResourceGroupPrivateSubnets).MakeSets =
        some (fun _ _ => .ok [privateSubnetsSet]) := rfl
    rw [hl] at hmk
    simp only [Option.some.injEq] at hmk
    subst hmk
    simp only [Except.ok.injEq] at hok
    subst hok
    simp only [List.mem_singleton] at hs
    subst hs
    rfl
  by_cases h1 : g = ResourceGroupLocalCluster
  · subst h1
    have hl : (lookupGroupFuncts ResourceGroupLocalCluster).MakeSets = none := rfl
    rw [hl] at hmk
    cases hmk
  by_cases h2 : g = ResourceGroupRemoteCluster
  · subst h2
    have hl : (lookupGroupFuncts ResourceGroupRemoteCluster).MakeSets = none := rfl
    rw [hl] at hmk
    cases hmk
  · have e1 : (g == ResourceGroupLocalCluster) = false := beq_eq_false_iff_ne.mpr h1
    have e2 : (g == ResourceGroupRemoteCluster) = false := beq_eq_false_iff_ne.mpr h2
    have e3 : (g == ResourceGroupOffloaded) = false := beq_eq_false_iff_ne.mpr h3
    have e4 : (g == ResourceGroupVcLocal) = false := beq_eq_false_iff_ne.mpr h4
    have e5 : (g == ResourceGroupVcRemote) = false := beq_eq_false_iff_ne.mpr h5
    have e6 : (g == ResourceGroupPrivateSubnets) = false := beq_eq_false_iff_ne.mpr h6
    have hl : lookupGroupFuncts g = {} := by
      simp [lookupGroupFuncts, ResourceGroupFuncts, List.lookup, e1, e2, e3, e4, e5, e6]
    rw [hl] at hmk
    cases hmk

/-- Every set the group loop emits is named for some group of the iterated list. -/
theorem forgeResourceGroupSets_names (env : Env) (clusterID : String) :
    ∀ (l : List ResourceGroup) (sets : List FwSet),
      forgeResourceGroupSets env clusterID l = .ok sets →
      ∀ s ∈ sets, ∃ g ∈ l, groupSetNameOf g = some s.name := by
  intro l
  induction l with
  | nil =>
    intro sets h s hs
    simp only [forgeResourceGroupSets, Except.ok.injEq] at h
    subst h
    simp at hs
  | cons g rest ih =>
    intro sets h s hs
    unfold forgeResourceGroupSets at h
    cases hmk : (lookupGroupFuncts g).MakeSets with
    | none =>
      rw [hmk] at h
      simp only at h
      obtain ⟨g', hg', hname⟩ := ih sets h s hs
      exact ⟨g', List.mem_cons_of_mem _ hg', hname⟩
    | some mk =>
      rw [hmk] at h
      simp only at h
      cases hok : mk env clusterID with
      | error e => rw [hok] at h; simp at h
      | ok gsets =>
        rw [hok] at h
        simp only at h
        obtain ⟨more, hmore, hb⟩ := except_map_ok _ _ _ h
        subst hb
        rcases List.mem_append.mp hs with hmem | hmem
        · exact ⟨g, List.mem_cons_self g rest,
            makeSets_names g mk env clusterID gsets s hmk hok hmem⟩
        · obtain ⟨g', hg', hname⟩ := ih more hmore s hmem
          exact ⟨g', List.mem_cons_of_mem _ hg', hname⟩

/-- Every set the namespace loop emits is named `ns-<namespace>` for some namespace
of the iterated list. -/
theorem forgeNamespaceSets_names (env : Env) :
    ∀ (l : List String) (sets : List FwSet),
      forgeNamespaceSets env l = .ok sets →
      ∀ s ∈ sets, ∃ ns ∈ l, s.name = "ns-" ++ ns := by
  intro l
  induction l with
  | nil =>
    intro sets h s hs
    simp only [forgeNamespaceSets, Except.ok.injEq] at h
    subst h
    simp at hs
  | cons ns rest ih =>
    intro sets h s hs
    unfold forgeNamespaceSets at h
    cases hp : GetPodsInNamespace env ns with
    | error e => rw [hp] at h; simp at h
    | ok pods =>
      rw [hp] at h
      simp only at h
      obtain ⟨more, hmore, hb⟩ := except_map_ok _ _ _ h
      subst hb
      rcases List.mem_cons.mp hs with hmem | hmem
      · subst hmem
        exact ⟨ns, List.mem_cons_self ns rest, rfl⟩
      · obtain ⟨ns', hns', hname⟩ := ih more hmore s hmem
        exact ⟨ns', List.mem_cons_of_mem _ hns', hname⟩

/-- The fixed group set names never collide with a namespace set name `ns-<ns>`. -/
theorem groupSetNameOf_ne_ns_name (g : ResourceGroup) (ns nm : String)
    (h : groupSetNameOf g = some nm) : nm ≠ "ns-" ++ ns := by
  unfold groupSetNameOf at h
  split_ifs at h with h1 h2 h3 h4 <;>
    first
      | (simp only [Option.some.injEq] at h; subst h; intro heq
         have hd := congrArg String.data heq
         simp [String.data_append] at hd)
      | exact absurd h (by simp)

/-- The fixed group set names identify their group. -/
theorem groupSetNameOf_inj (g g' : ResourceGroup) (nm : String)
    (h : groupSetNameOf g = some nm) (h' : groupSetNameOf g' = some nm) : g = g' := by
  unfold groupSetNameOf at h h'
  split_ifs at h with h1 h2 h3 h4 <;> split_ifs at h' with b1 b2 b3 b4 <;>
    first
      | exact absurd (h.trans h'.symm) (by decide)
      | simp_all

/-- Namespace set names are injective in the namespace. -/
theorem ns_set_name_inj (a b : String) (h : "ns-" ++ a = "ns-" ++ b) : a = b := by
  have hd := congrArg String.data h
  simp [String.data_append] at hd
  exact String.ext hd

/-- C6: for a resource group (or namespace) referenced by zero rules of a policy,
no set named for it appears in the compiled output; and each referenced group
(and namespace) appears exactly once in the iteration the set-creation loop runs
over, i.e. `MakeSets` is invoked once per distinct referenced group, however many
rules reference it. -/
theorem c6_dead_group_elimination (env : Env) (cfg : PeeringConnectivitySpec)
    (clusterID : String) (rgIter : List ResourceGroup → List ResourceGroup)
    (nsIter : List String → List String) (spec : FirewallConfigurationSpec)
    (hrg : ∀ l, (rgIter l).Perm l) (hns : ∀ l, (nsIter l).Perm l)
    (h : ForgeFabricSpec env cfg clusterID rgIter nsIter = .ok spec) :
    (∀ g : ResourceGroup, (∀ rule ∈ cfg.rules, ruleMentionsGroup rule g = false) →
        ∀ s ∈ spec.table.sets, groupSetNameOf g ≠ some s.name) ∧
      (∀ ns : String, (∀ rule ∈ cfg.rules, ruleMentionsNamespace rule ns = false) →
        ∀ s ∈ spec.table.sets, s.name ≠ "ns-" ++ ns) ∧
      (∀ g : ResourceGroup, (∃ rule ∈ cfg.rules, ruleMentionsGroup rule g = true) →
        (rgIter (markUsedAll cfg.rules [] []).1).count g = 1) ∧
      (∀ ns : String, (∃ rule ∈ cfg.rules, ruleMentionsNamespace rule ns = true) →
        (nsIter (markUsedAll cfg.rules [] []).2).count ns = 1) := by
  obtain ⟨frs, usedRGs, usedNss, rgSets, nsSets, hloop, hsets, hnsets, hsetsEq, _, _⟩ :=
    forgeFabricSpec_ok_shape env cfg clusterID rgIter nsIter spec h
  have hused := forgeAllowedTrafficRules_used env clusterID _ _ _ _ _ _ _ hloop
  have husedRG : usedRGs = (markUsedAll cfg.rules [] []).1 := congrArg Prod.fst hused
  have husedNS : usedNss = (markUsedAll cfg.rules [] []).2 := congrArg Prod.snd hused
  have hmemRG : ∀ g, g ∈ usedRGs ↔ ∃ rule ∈ cfg.rules, ruleMentionsGroup rule g = true := by
    intro g
    rw [husedRG, mem_markUsedAll_rg]
    simp
  have hmemNS : ∀ ns, ns ∈ usedNss ↔
      ∃ rule ∈ cfg.rules, ruleMentionsNamespace rule ns = true := by
    intro ns
    rw [husedNS, mem_markUsedAll_ns]
    simp
  have hnodup := nodup_markUsedAll cfg.rules [] [] List.nodup_nil List.nodup_nil
  refine ⟨?_, ?_, ?_, ?_⟩
  · intro g hg s hs hname
    rw [hsetsEq] at hs
    rcases List.mem_append.mp hs with hmem | hmem
    · obtain ⟨g', hg', hname'⟩ := forgeResourceGroupSets_names env clusterID _ _ hsets s hmem
      have : g = g' := groupSetNameOf_inj g g' s.name hname hname'
      subst this
      have : g ∈ usedRGs := (hrg usedRGs).mem_iff.mp hg'
      obtain ⟨rule, hr, hm⟩ := (hmemRG g).mp this
      rw [hg rule hr] at hm
      cases hm
    · obtain ⟨ns', _, hname'⟩ := forgeNamespaceSets_names env _ _ hnsets s hmem
      exact groupSetNameOf_ne_ns_name g ns' s.name hname (by rw [← hname'])
  · intro ns hns0 s hs hname
    rw [hsetsEq] at hs
    rcases List.mem_append.mp hs with hmem | hmem
    · obtain ⟨g', _, hname'⟩ := forgeResourceGroupSets_names env clusterID _ _ hsets s hmem
      exact groupSetNameOf_ne_ns_name g' ns s.name hname' hname
    · obtain ⟨ns', hns', hname'⟩ := forgeNamespaceSets_names env _ _ hnsets s hmem
      have : ns' = ns := ns_set_name_inj ns' ns (by rw [← hname', ← hname])
      subst this
      have : ns' ∈ usedNss := (hns usedNss).mem_iff.mp hns'
      obtain ⟨rule, hr, hm⟩ := (hmemNS ns').mp this
      rw [hns0 rule hr] at hm
      cases hm
  · intro g hg
    rw [← husedRG]
    have hmem : g ∈ usedRGs := (hmemRG g).mpr hg
    have hnd : usedRGs.Nodup := by rw [husedRG]; exact hnodup.1
    rw [(hrg usedRGs).count_eq g]
    exact List.count_eq_one_of_mem hnd hmem
  · intro ns hns1
    rw [← husedNS]
    have hmem : ns ∈ usedNss := (hmemNS ns).mpr hns1
    have hnd : usedNss.Nodup := by rw [husedNS]; exact hnodup.2
    rw [(hns usedNss).count_eq ns]
    exact List.count_eq_one_of_mem hnd hmem

/-- Concrete policy used by the C6 witness: one rule whose source is `offloaded`. -/
def c6WitnessCfg : PeeringConnectivitySpec :=
  ⟨[{ action := "allow", source := some { group := some "offloaded" } }]⟩

/-- Its compiled spec under the empty collaborator state and identity iteration. -/
def c6WitnessSpec : FirewallConfigurationSpec :=
  specOfResult (ForgeFabricSpec envEmpty c6WitnessCfg "c1" id id)

/-- C6 witness at the one-rule `offloaded` policy. -/
theorem c6_dead_group_elimination_witness :
    (∀ l : List String, (id l).Perm l) ∧
      ForgeFabricSpec envEmpty c6WitnessCfg "c1" id id = .ok c6WitnessSpec ∧
      ((∀ g : ResourceGroup,
          (∀ rule ∈ c6WitnessCfg.rules, ruleMentionsGroup rule g = false) →
          ∀ s ∈ c6WitnessSpec.table.sets, groupSetNameOf g ≠ some s.name) ∧
        (∀ ns : String,
          (∀ rule ∈ c6WitnessCfg.rules, ruleMentionsNamespace rule ns = false) →
          ∀ s ∈ c6WitnessSpec.table.sets, s.name ≠ "ns-" ++ ns) ∧
        (∀ g : ResourceGroup,
          (∃ rule ∈ c6WitnessCfg.rules, ruleMentionsGroup rule g = true) →
          (id (markUsedAll c6WitnessCfg.rules [] []).1).count g = 1) ∧
        (∀ ns : String,
          (∃ rule ∈ c6WitnessCfg.rules, ruleMentionsNamespace rule ns = true) →
          (id (markUsedAll c6WitnessCfg.rules [] []).2).count ns = 1)) :=
  ⟨fun l => List.Perm.refl l,
    by decide,
    c6_dead_group_elimination envEmpty c6WitnessCfg "c1" id id c6WitnessSpec
      (fun l => List.Perm.refl l) (fun l => List.Perm.refl l) (by decide)⟩

end LiqoSecurity
